import Mathlib

/-!
Verification of the dagu execution core against its specification.

The Go sources are embedded shallowly: pure control flow becomes Lean
functions, stateful code becomes explicit state passing, fallible calls
into the runtime (shell evaluation, the Docker client, the operating
system) become explicit outcome parameters supplied by an environment
record, and Go `error` values become `Option`/`Except` with just enough
structure to express `errors.Is` checks where the code performs them.
-/

set_option autoImplicit false

namespace DaguSpec

/-! ## Condition evaluation (package digraph)

Embeds `Condition`, `Condition.eval`, `Condition.evalCondition`,
`Condition.evalCommand`, `evalCondition` and `EvalConditions`.

A Go error is modelled by its message together with the one predicate the
code tests on it: whether `errors.Is(err, ErrConditionNotMet)` holds.
`fmt.Errorf("%w: ...", ErrConditionNotMet, ...)` produces an error with
`wrapsConditionNotMet = true`; `fmt.Errorf` with only `%v`/`%s` verbs
produces one with `wrapsConditionNotMet = false`.
-/

/-- A Go `error` value as observed by the condition-evaluation code:
its message and whether `errors.Is(err, ErrConditionNotMet)` holds. -/
structure GoError where
  wrapsConditionNotMet : Bool
  msg : String
  deriving DecidableEq, Repr

/-- `Condition` from the digraph package: a command or condition
expression together with the expected value. -/
structure Condition where
  command : String
  condition : String
  expected : String
  deriving DecidableEq, Repr

/-- The runtime environment that condition evaluation consults: which
context kind is installed, the three `EvalString` implementations, the
configured shell, and the outcome of running a command. -/
structure CondEnv where
  isStepContext : Bool
  isContext : Bool
  stepEvalString : String → Except GoError String
  ctxEvalString : String → Except GoError String
  cmdutilEvalString : String → Except GoError String
  shellCommand : String
  runCommand : List String → Except GoError Unit

/-- `Condition.evalCondition`: evaluate the condition expression through
the step context when installed, otherwise through the DAG context, and
compare the result with `Expected`. -/
def Condition.evalConditionExpr (env : CondEnv) (c : Condition) :
    Except GoError Bool :=
  if env.isStepContext then
    match env.stepEvalString c.condition with
    | .error e => .error e
    | .ok v => .ok (c.expected == v)
  else
    match env.ctxEvalString c.condition with
    | .error e => .error e
    | .ok v => .ok (c.expected == v)

/-- `Condition.evalCommand`: resolve the command string through the
appropriate context, then run it (through the shell when one is
configured); a command failure is wrapped with `ErrConditionNotMet`. -/
def Condition.evalCommand (env : CondEnv) (c : Condition) :
    Except GoError Bool :=
  let resolved :=
    if env.isStepContext then env.stepEvalString c.command
    else if env.isContext then env.ctxEvalString c.command
    else env.cmdutilEvalString c.command
  match resolved with
  | .error e => .error e
  | .ok commandToRun =>
    let argv :=
      if env.shellCommand == "" then [commandToRun]
      else [env.shellCommand, "-c", commandToRun]
    match env.runCommand argv with
    | .error e => .error ⟨true, "condition was not met: " ++ e.msg⟩
    | .ok _ => .ok true

/-- `Condition.eval`: dispatch on which of `Condition`/`Command` is set;
neither set is an invalid condition (an error that does not wrap the
sentinel). -/
def Condition.eval (env : CondEnv) (c : Condition) : Except GoError Bool :=
  if c.condition ≠ "" then c.evalConditionExpr env
  else if c.command ≠ "" then c.evalCommand env
  else .error ⟨false, "invalid condition: Condition=" ++ c.condition⟩

/-- Free function `evalCondition`: evaluate one condition and turn a
mismatch into an `ErrConditionNotMet`-wrapping error; evaluation errors
that do not already wrap the sentinel are re-wrapped with `%v` (and so do
not wrap it either). -/
def evalCondition (env : CondEnv) (c : Condition) : Option GoError :=
  match c.eval env with
  | .error e =>
    if e.wrapsConditionNotMet then some e
    else some ⟨false, "failed to evaluate condition: Condition="
        ++ c.condition ++ " Error=" ++ e.msg⟩
  | .ok matched =>
    if matched then none
    else some ⟨true, "condition was not met: Condition=" ++ c.condition
        ++ " Expected=" ++ c.expected⟩

/-- `EvalConditions`: evaluate the list in order, returning the first
error. -/
def EvalConditions (env : CondEnv) : List Condition → Option GoError
  | [] => none
  | c :: rest =>
    match evalCondition env c with
    | some e => some e
    | none => EvalConditions env rest

/-- Equality on `Except` outcomes is decidable when it is on both sides. -/
def exceptDecEq {α β : Type} [DecidableEq α] [DecidableEq β] :
    DecidableEq (Except α β)
  | .error a, .error b =>
    if h : a = b then isTrue (by rw [h])
    else isFalse (by intro hc; cases hc; exact h rfl)
  | .error _, .ok _ => isFalse (by intro h; cases h)
  | .ok _, .error _ => isFalse (by intro h; cases h)
  | .ok a, .ok b =>
    if h : a = b then isTrue (by rw [h])
    else isFalse (by intro hc; cases hc; exact h rfl)

instance {α β : Type} [DecidableEq α] [DecidableEq β] :
    DecidableEq (Except α β) := exceptDecEq

/-- A condition is met when its evaluation succeeds with a match. -/
def conditionMet (env : CondEnv) (c : Condition) : Prop :=
  c.eval env = .ok true

instance (env : CondEnv) (c : Condition) : Decidable (conditionMet env c) := by
  unfold conditionMet; infer_instance

theorem evalCondition_none_iff_met (env : CondEnv) (c : Condition) :
    evalCondition env c = none ↔ conditionMet env c := by
  unfold evalCondition conditionMet
  cases h : c.eval env with
  | error e =>
    simp only [h]
    constructor
    · intro hc
      by_cases hw : e.wrapsConditionNotMet <;> simp [hw] at hc
    · intro hc; cases hc
  | ok matched =>
    simp only [h]
    cases matched <;> simp

theorem EvalConditions_append_met (env : CondEnv) (l1 : List Condition)
    (l2 : List Condition) (h : ∀ c ∈ l1, conditionMet env c) :
    EvalConditions env (l1 ++ l2) = EvalConditions env l2 := by
  induction l1 with
  | nil => rfl
  | cons c rest ih =>
    have hc : conditionMet env c := h c (List.mem_cons_self c rest)
    have hnone : evalCondition env c = none :=
      (evalCondition_none_iff_met env c).mpr hc
    simp only [List.cons_append, EvalConditions, hnone]
    exact ih (fun c' hc' => h c' (List.mem_cons_of_mem c hc'))

theorem EvalConditions_none_iff (env : CondEnv) (l : List Condition) :
    EvalConditions env l = none ↔ ∀ c ∈ l, conditionMet env c := by
  induction l with
  | nil => simp [EvalConditions]
  | cons c rest ih =>
    simp only [EvalConditions]
    cases h : evalCondition env c with
    | some e =>
      simp only []
      constructor
      · intro hc; cases hc
      · intro hall
        have hc : conditionMet env c := hall c (List.mem_cons_self c rest)
        rw [(evalCondition_none_iff_met env c).mpr hc] at h
        cases h
    | none =>
      simp only []
      rw [ih]
      constructor
      · intro hall c' hc'
        rcases List.mem_cons.mp hc' with hc' | hc'
        · subst hc'; exact (evalCondition_none_iff_met env c').mp h
        · exact hall c' hc'
      · intro hall c' hc'; exact hall c' (List.mem_cons_of_mem c hc')

theorem evalCondition_wraps_iff (env : CondEnv) (c : Condition)
    (e : GoError) (h : evalCondition env c = some e) :
    e.wrapsConditionNotMet = true ↔
      (c.eval env = Except.ok false ∨
       ∃ e0, c.eval env = Except.error e0 ∧
         e0.wrapsConditionNotMet = true) := by
  unfold evalCondition at h
  cases hv : c.eval env with
  | error e0 =>
    rw [hv] at h
    by_cases hw : e0.wrapsConditionNotMet = true
    · simp only [hw, if_true] at h
      injection h with he
      subst he
      simp [hw]
    · simp only [hw, if_false] at h
      injection h with he
      subst he
      simp [hw]
  | ok matched =>
    rw [hv] at h
    cases matched with
    | true => simp at h
    | false =>
      simp only [Bool.false_eq_true, if_false] at h
      injection h with he
      subst he
      simp

/-- C1 (amended). `EvalConditions` evaluates the conditions in declared
order: it returns `none` exactly when every condition in the list is
met, and at the first condition that is not met it returns that
condition's `evalCondition` error — an outcome independent of the
conditions after it — which is non-`none`.  That error wraps the
sentinel `ErrConditionNotMet` exactly when the condition evaluated
successfully but did not match, or its evaluation failed with an error
itself wrapping the sentinel; in particular `evalCommand` wraps a
failing command run with the sentinel, while other evaluation failures
(such as a condition with neither field set) yield a non-wrapping
error. -/
theorem EvalConditions_first_failure (env : CondEnv) (l : List Condition) :
    (EvalConditions env l = none ↔ ∀ c ∈ l, conditionMet env c) ∧
    (∀ l1 c l2, l = l1 ++ c :: l2 → (∀ c' ∈ l1, conditionMet env c') →
      ¬ conditionMet env c →
      EvalConditions env l = evalCondition env c ∧
      evalCondition env c ≠ none ∧
      (∀ e, evalCondition env c = some e →
        (e.wrapsConditionNotMet = true ↔
          (c.eval env = Except.ok false ∨
           ∃ e0, c.eval env = Except.error e0 ∧
             e0.wrapsConditionNotMet = true)))) ∧
    (∀ (c : Condition) (commandToRun : String) (e0 : GoError),
      (if env.isStepContext then env.stepEvalString c.command
       else if env.isContext then env.ctxEvalString c.command
       else env.cmdutilEvalString c.command) = Except.ok commandToRun →
      env.runCommand (if env.shellCommand == "" then [commandToRun]
          else [env.shellCommand, "-c", commandToRun]) =
        Except.error e0 →
      Condition.evalCommand env c =
        Except.error ⟨true, "condition was not met: " ++ e0.msg⟩) := by
  refine ⟨EvalConditions_none_iff env l, ?_, ?_⟩
  · intro l1 c l2 hl h1 hc
    subst hl
    have hne : evalCondition env c ≠ none := by
      intro h
      exact hc ((evalCondition_none_iff_met env c).mp h)
    refine ⟨?_, hne, ?_⟩
    · rw [EvalConditions_append_met env l1 _ h1]
      cases h : evalCondition env c with
      | some e => simp [EvalConditions, h]
      | none => exact absurd h hne
    · intro e he
      exact evalCondition_wraps_iff env c e he
  · intro c commandToRun e0 hres hrun
    unfold Condition.evalCommand
    simp only [hres, hrun]

/-- A concrete evaluation environment: no step or DAG context installed,
string evaluation is the identity, and commands always succeed. -/
def envCE : CondEnv :=
  { isStepContext := false
    isContext := false
    stepEvalString := fun s => .ok s
    ctxEvalString := fun s => .ok s
    cmdutilEvalString := fun s => .ok s
    shellCommand := "sh"
    runCommand := fun _ => .ok () }

/-- A `Condition` with neither `Condition` nor `Command` set. -/
def condInvalid : Condition := ⟨"", "", ""⟩

/-- A condition whose expression evaluates to its expected value. -/
def condTrue : Condition := ⟨"", "yes", "yes"⟩

/-- A condition whose expression evaluates to a different value. -/
def condFalse : Condition := ⟨"", "no", "yes"⟩

/-- A condition after the first failing one. -/
def condAfter : Condition := ⟨"", "later", "later"⟩

/-- C1 counterexample. A condition with neither field set is not met,
yet `EvalConditions` returns an error that does not wrap the sentinel
`ErrConditionNotMet`: the claim that the error returned for the first
unmet condition wraps the sentinel fails at this input. -/
theorem EvalConditions_sentinel_counterexample :
    ¬ conditionMet envCE condInvalid ∧
    ∃ e, EvalConditions envCE [condInvalid] = some e ∧
      e.wrapsConditionNotMet = false := by
  refine ⟨by decide, ⟨false, "failed to evaluate condition: Condition="
      ++ "" ++ " Error=" ++ ("invalid condition: Condition=" ++ "")⟩, ?_, rfl⟩
  rfl

/-- Like `envCE` but every command run fails with a plain error. -/
def envFailCmd : CondEnv :=
  { envCE with runCommand := fun _ => .error ⟨false, "exit status 1"⟩ }

/-- Witness for `EvalConditions_first_failure` at a concrete list whose
second condition mismatches, and at a concrete command condition whose
run fails. -/
theorem EvalConditions_first_failure_witness :
    (∀ c' ∈ [condTrue], conditionMet envCE c') ∧
    ¬ conditionMet envCE condFalse ∧
    EvalConditions envCE [condTrue, condFalse, condAfter] =
      evalCondition envCE condFalse ∧
    evalCondition envCE condFalse ≠ none ∧
    (∃ e, evalCondition envCE condFalse = some e ∧
      e.wrapsConditionNotMet = true) ∧
    Condition.evalCommand envFailCmd ⟨"run-me", "", ""⟩ =
      Except.error ⟨true, "condition was not met: exit status 1"⟩ := by
  have h1 : ∀ c' ∈ [condTrue], conditionMet envCE c' := by decide
  have h2 : ¬ conditionMet envCE condFalse := by decide
  have h := (EvalConditions_first_failure envCE
      [condTrue, condFalse, condAfter]).2.1 [condTrue] condFalse [condAfter]
      rfl h1 h2
  have hcmd := (EvalConditions_first_failure envFailCmd []).2.2
      ⟨"run-me", "", ""⟩ "run-me" ⟨false, "exit status 1"⟩ rfl rfl
  have he : evalCondition envCE condFalse =
      some ⟨true, "condition was not met: Condition=no Expected=yes"⟩ := by
    rfl
  have hw := (h.2.2 _ he).mpr (Or.inl (by decide))
  exact ⟨h1, h2, h.1, h.2.1, ⟨_, he, hw⟩, hcmd⟩

/-! ## Unix socket frontend (package sock)

Embeds `Server.Serve` (split into its bind phase, one accept-loop
iteration, and its deferred cleanup), `Server.Shutdown` and
`httpResponseWriter.Write`.  The observable state is whether a file
exists at `srv.addr`, whether the listener is open, the `quit` flag,
and how many times the listener has been closed.  Errors are opaque
strings; the result of `listener.Close()` is an environment input.
-/

/-- The sentinel `ErrServerRequestedShutdown`. -/
def errServerRequestedShutdown : String :=
  "socket frontend is requested to shutdown"

/-- Observable state of a `Server` together with the file at its
socket path. -/
structure SockState where
  fileExists : Bool
  listenerOpen : Bool
  hasListener : Bool
  quit : Bool
  closeCount : Nat
  deriving DecidableEq, Repr

/-- `Server.Shutdown`: under the mutex, if `quit` is not yet set, set it
and close the listener when one exists, returning the close result;
otherwise do nothing and return nil.  Closing a `*net.UnixListener`
created by `net.Listen` unlinks its socket file (Go's default
unlink-on-close), so the close also removes the file at the path. -/
def Server.Shutdown (s : SockState) (closeErr : Option String) :
    SockState × Option String :=
  if s.quit = false then
    let s1 := { s with quit := true }
    if s.hasListener then
      ({ s1 with
          listenerOpen := false
          fileExists := false
          closeCount := s1.closeCount + 1 }, closeErr)
    else (s1, none)
  else (s, none)

/-- `net.Listen("unix", addr)`: binding fails when a file already exists
at the path, otherwise it creates the socket file and an open listener. -/
def netListenUnix (fileExists : Bool) : Except String SockState :=
  if fileExists then .error "listen unix: address already in use"
  else .ok { fileExists := true, listenerOpen := true, hasListener := true,
             quit := false, closeCount := 0 }

/-- `os.Remove(srv.addr)`: afterwards no file exists at the path. -/
def osRemove (_fileExists : Bool) : Bool := false

/-- The start of `Server.Serve`: `os.Remove(srv.addr)` followed by
`net.Listen("unix", srv.addr)`. -/
def Server.serveBind (fileExists : Bool) : Except String SockState :=
  netListenUnix (osRemove fileExists)

/-- The deferred cleanup in `Server.Serve`: `srv.Shutdown()` followed by
`os.Remove(srv.addr)`. -/
def Server.serveCleanup (s : SockState) (closeErr : Option String) :
    SockState :=
  let s1 := (Server.Shutdown s closeErr).1
  { s1 with fileExists := false }

/-- Outcome of one `listener.Accept()` call. -/
inductive AcceptResult where
  | conn
  | err (msg : String)
  deriving DecidableEq, Repr

/-- What one iteration of the accept loop does next. -/
inductive LoopOutcome where
  | exitWith (e : String)
  | continueLoop (spawned : Bool)
  deriving DecidableEq, Repr

/-- One iteration of the accept loop in `Server.Serve`: after the accept
attempt completes, the `quit` flag is checked first and, when set, the
loop returns `ErrServerRequestedShutdown`; otherwise a successful accept
spawns a handler and an accept error is silently skipped — the logger is
not invoked — and the loop continues. -/
def serveAcceptStep (quit : Bool) (r : AcceptResult) (logs : List String) :
    LoopOutcome × List String :=
  if quit then (.exitWith errServerRequestedShutdown, logs)
  else
    match r with
    | .conn => (.continueLoop true, logs)
    | .err _ => (.continueLoop false, logs)

/-- The state `Server.serveBind` produces. -/
def sBound : SockState :=
  { fileExists := true, listenerOpen := true, hasListener := true,
    quit := false, closeCount := 0 }

/-- C2. For a server whose `Serve` has bound the listener (so a
listener exists, and the socket file is gone whenever `quit` is already
set, a prior `Shutdown` having closed — and thereby unlinked — it),
once `Shutdown` returns no file exists at the socket path; moreover
both hypotheses are preserved, so the same holds after every later
`Shutdown` call. -/
theorem Shutdown_removes_socket_file (s : SockState)
    (closeErr : Option String) (hl : s.hasListener = true)
    (hq : s.quit = true → s.fileExists = false) :
    ((Server.Shutdown s closeErr).1).fileExists = false ∧
    ((Server.Shutdown s closeErr).1).hasListener = true := by
  unfold Server.Shutdown
  by_cases h : s.quit = false
  · simp [h, hl]
  · have hqt : s.quit = true := by
      cases hv : s.quit with
      | false => exact absurd hv h
      | true => rfl
    simp [h, hl, hq hqt]

/-- Witness for `Shutdown_removes_socket_file` on the freshly bound
server. -/
theorem Shutdown_removes_socket_file_witness :
    sBound.hasListener = true ∧
    ((Server.Shutdown sBound none).1).fileExists = false ∧
    ((Server.Shutdown sBound none).1).hasListener = true := by
  have h := Shutdown_removes_socket_file sBound none rfl (by decide)
  exact ⟨rfl, h.1, h.2⟩

/-- C3. `Shutdown` is idempotent: a second call after any first call
returns the first call's state unchanged together with nil, and starting
from a server that has never closed its listener, the listener is closed
at most once in total. -/
theorem Shutdown_idempotent (s : SockState) (e1 e2 : Option String) :
    Server.Shutdown ((Server.Shutdown s e1).1) e2 =
      ((Server.Shutdown s e1).1, none) ∧
    (s.closeCount = 0 → ((Server.Shutdown s e1).1).closeCount ≤ 1) := by
  constructor
  · unfold Server.Shutdown
    by_cases h : s.quit = false
    · by_cases hl : s.hasListener = true <;> simp [h, hl]
    · simp [h]
  · intro h0
    unfold Server.Shutdown
    by_cases h : s.quit = false
    · by_cases hl : s.hasListener = true <;> simp [h, hl, h0]
    · simp [h, h0]

/-- Witness for `Shutdown_idempotent` on the freshly bound server. -/
theorem Shutdown_idempotent_witness :
    Server.Shutdown ((Server.Shutdown sBound (some "close failed")).1) none =
      ((Server.Shutdown sBound (some "close failed")).1, none) ∧
    sBound.closeCount = 0 ∧
    ((Server.Shutdown sBound (some "close failed")).1).closeCount ≤ 1 := by
  have h := Shutdown_idempotent sBound (some "close failed") none
  exact ⟨h.1, rfl, h.2 rfl⟩

/-- C4 counterexample. An accept error arriving while `quit` is unset
makes the loop retry, but nothing is logged: starting from an empty log,
the log is still empty afterwards, refuting the claim that the error is
logged. -/
theorem serveAcceptStep_log_counterexample :
    serveAcceptStep false (AcceptResult.err "accept: too many open files")
      [] = (LoopOutcome.continueLoop false, []) ∧
    (serveAcceptStep false (AcceptResult.err "accept: too many open files")
      []).2.length = 0 := by
  exact ⟨rfl, rfl⟩

/-- C4 (amended). When an accept attempt completes after `quit` was set
the loop returns the sentinel `ErrServerRequestedShutdown`; an accept
error while `quit` is unset is silently ignored (the log is unchanged)
and the loop retries; a successful accept spawns a handler. -/
theorem serveAcceptStep_spec (quit : Bool) (r : AcceptResult)
    (logs : List String) :
    (quit = true →
      serveAcceptStep quit r logs =
        (.exitWith errServerRequestedShutdown, logs)) ∧
    (quit = false → ∀ m, r = .err m →
      serveAcceptStep quit r logs = (.continueLoop false, logs)) ∧
    (quit = false → r = .conn →
      serveAcceptStep quit r logs = (.continueLoop true, logs)) := by
    refine ⟨?_, ?_, ?_⟩
    · intro h; subst h; rfl
    · intro h m hr; subst h; subst hr; rfl
    · intro h hr; subst h; subst hr; rfl

/-- Witness for `serveAcceptStep_spec` on concrete loop inputs. -/
theorem serveAcceptStep_spec_witness :
    serveAcceptStep true AcceptResult.conn [] =
      (LoopOutcome.exitWith errServerRequestedShutdown, []) ∧
    serveAcceptStep false (AcceptResult.err "boom") ["x"] =
      (LoopOutcome.continueLoop false, ["x"]) ∧
    serveAcceptStep false AcceptResult.conn [] =
      (LoopOutcome.continueLoop true, []) := by
  exact ⟨(serveAcceptStep_spec true AcceptResult.conn []).1 rfl,
    (serveAcceptStep_spec false (AcceptResult.err "boom") ["x"]).2.1 rfl
      "boom" rfl,
    (serveAcceptStep_spec false AcceptResult.conn []).2.2 rfl rfl⟩

/-- C5. `Serve` removes any pre-existing file at the socket path before
binding, so binding always succeeds regardless of a stale socket file —
whereas listening directly with the file still present would fail. -/
theorem serveBind_removes_stale_file (fileExists : Bool) :
    Server.serveBind fileExists = Except.ok sBound ∧
    netListenUnix true = Except.error "listen unix: address already in use"
    := by
  refine ⟨?_, rfl⟩
  cases fileExists <;> rfl

/-! ### httpResponseWriter -/

/-- An HTTP/1.0 response as `httpResponseWriter.Write` builds it. -/
structure HTTPResponse where
  statusCode : Nat
  protoMajor : Nat
  protoMinor : Nat
  body : String
  deriving DecidableEq, Repr

/-- The underlying connection: responses written so far, and whether the
next write fails. -/
structure ConnState where
  written : List HTTPResponse
  failWrite : Bool
  deriving DecidableEq, Repr

/-- `response.Write(conn)`: append the serialized response to the
connection, or fail. -/
def connWriteResponse (conn : ConnState) (r : HTTPResponse) :
    ConnState × Option String :=
  if conn.failWrite then (conn, some "write: broken pipe")
  else ({ conn with written := conn.written ++ [r] }, none)

/-- `httpResponseWriter.Write`: build an HTTP/1.0 response from the
stored status code and the data, write it to the connection ignoring the
write's result, and return `(0, nil)`. -/
def httpResponseWriterWrite (statusCode : Nat) (conn : ConnState)
    (data : String) : ConnState × Nat × Option String :=
  let resp : HTTPResponse :=
    { statusCode := statusCode, protoMajor := 1, protoMinor := 0,
      body := data }
  let out := connWriteResponse conn resp
  (out.1, 0, none)

/-- C10. `httpResponseWriter.Write` returns byte count `0` and a nil
error for every status code, connection state (including one whose write
fails) and payload: the connection write's error is discarded. -/
theorem httpResponseWriterWrite_discards_error (statusCode : Nat)
    (conn : ConnState) (data : String) :
    (httpResponseWriterWrite statusCode conn data).2 = (0, none) := rfl

/-! ## Docker executor (package executor)

Embeds the `docker` struct's `SetStdout`, `SetStderr`, `Kill` and `Run`
(the latter split into the pull step, `execInContainer` and
`attachAndWait`).  Writers are abstract identities; every Docker client
call's outcome is an input field of a world record; the cancel function
installed by `Run` is modelled by its kind together with the mutable
flags its closure captures (`removing`, the context's cancelled flag,
and a count of `ContainerRemove` calls).
-/

/-- Which cancel function is stored in `e.cancel`: none (before `Run`),
the bare `cancelFunc` (installed at `Run` entry and used on the exec
path), or the closure installed on the new-container path that first
runs `removeContainer` and then `cancelFunc`. -/
inductive CancelKind where
  | noCancel
  | plain
  | withRemove
  deriving DecidableEq, Repr

/-- Observable state of a `docker` executor instance. -/
structure DockerExec where
  stdout : Nat
  cancelKind : CancelKind
  autoRemove : Bool
  removing : Bool
  ctxCancelled : Bool
  removeCalls : Nat
  deriving DecidableEq, Repr

/-- `docker.SetStdout`: store the writer in `e.stdout`. -/
def docker.SetStdout (e : DockerExec) (w : Nat) : DockerExec :=
  { e with stdout := w }

/-- `docker.SetStderr`: also stores its writer in `e.stdout`. -/
def docker.SetStderr (e : DockerExec) (w : Nat) : DockerExec :=
  { e with stdout := w }

/-- The destination pair passed to `stdcopy.StdCopy` in `attachAndWait`:
both the stdout and the stderr stream go to `e.stdout`. -/
def docker.attachCopyDest (e : DockerExec) : Nat × Nat :=
  (e.stdout, e.stdout)

/-- The `removeContainer` closure in `docker.Run`: a no-op unless
`autoRemove` is set and no removal has happened yet. -/
def docker.removeContainer (e : DockerExec) : DockerExec :=
  if e.autoRemove = false ∨ e.removing = true then e
  else { e with removing := true, removeCalls := e.removeCalls + 1 }

/-- Running the stored cancel function. -/
def docker.cancelClosure (e : DockerExec) : DockerExec :=
  match e.cancelKind with
  | .noCancel => e
  | .plain => { e with ctxCancelled := true }
  | .withRemove =>
    let e1 := docker.removeContainer e
    { e1 with ctxCancelled := true }

/-- `docker.Kill`: run the cancel function when one is installed and
return nil. -/
def docker.Kill (e : DockerExec) : DockerExec × Option String :=
  match e.cancelKind with
  | .noCancel => (e, none)
  | _ => (docker.cancelClosure e, none)

/-- C7. `Kill` always returns nil; a second `Kill` leaves the state of
the first unchanged (in particular `ContainerRemove` is called at most
once); and with no cancel function installed `Kill` changes nothing. -/
theorem docker_Kill_idempotent (e : DockerExec) :
    (docker.Kill e).2 = none ∧
    docker.Kill ((docker.Kill e).1) = ((docker.Kill e).1, none) ∧
    (e.cancelKind = CancelKind.noCancel → (docker.Kill e).1 = e) := by
  obtain ⟨st, ck, ar, rm, cc, rc⟩ := e
  cases ck <;> cases ar <;> cases rm <;>
    simp [docker.Kill, docker.cancelClosure, docker.removeContainer]

/-- A freshly constructed docker executor, before `Run`. -/
def dockerFresh : DockerExec :=
  { stdout := 0, cancelKind := .noCancel, autoRemove := true,
    removing := false, ctxCancelled := false, removeCalls := 0 }

/-- Witness for `docker_Kill_idempotent` on the fresh executor whose
cancel field is still nil. -/
theorem docker_Kill_idempotent_witness :
    (docker.Kill dockerFresh).2 = none ∧
    docker.Kill ((docker.Kill dockerFresh).1) =
      ((docker.Kill dockerFresh).1, none) ∧
    dockerFresh.cancelKind = CancelKind.noCancel ∧
    (docker.Kill dockerFresh).1 = dockerFresh := by
  have h := docker_Kill_idempotent dockerFresh
  exact ⟨h.1, h.2.1, rfl, h.2.2 rfl⟩

/-- C9. `SetStderr` writes the same field as `SetStdout`: setting stderr
after stdout discards the stdout writer, the resulting state is the one
`SetStdout` alone would produce, and `attachAndWait` copies both
container streams to that single writer. -/
theorem docker_SetStderr_overwrites_stdout (e : DockerExec)
    (w1 w2 : Nat) :
    docker.SetStderr (docker.SetStdout e w1) w2 = docker.SetStdout e w2 ∧
    (docker.SetStderr (docker.SetStdout e w1) w2).stdout = w2 ∧
    docker.attachCopyDest (docker.SetStderr (docker.SetStdout e w1) w2) =
      (w2, w2) := by
  exact ⟨rfl, rfl, rfl⟩

/-- Outcome of `cli.ContainerWait`'s channel pair in `attachAndWait`. -/
inductive WaitOutcome where
  | chanErr (e : String)
  | exitStatus (code : Int)
  deriving DecidableEq, Repr

/-- The Docker client outcomes `attachAndWait` consumes. -/
structure AttachWaitWorld where
  logsResult : Except String Unit
  wait : WaitOutcome
  deriving DecidableEq, Repr

/-- `docker.attachAndWait`: attach the container logs, then wait; a
wait-channel error is returned as is, a non-zero exit status becomes an
error, exit status 0 yields nil. -/
def docker.attachAndWait (w : AttachWaitWorld) : Option String :=
  match w.logsResult with
  | .error e => some e
  | .ok _ =>
    match w.wait with
    | .chanErr e => some e
    | .exitStatus code =>
      if code ≠ 0 then some ("exit status " ++ toString code) else none

/-- Final outcome of the exec wait loop in `execInContainer`. -/
inductive ExecWaitOutcome where
  | inspectErr (e : String)
  | finished (exitCode : Int)
  | ctxDone (e : String)
  deriving DecidableEq, Repr

/-- The Docker client outcomes `execInContainer` consumes. -/
structure ExecWorld where
  inspect : Except String Bool
  execCreate : Except String Unit
  execAttach : Except String Unit
  waitLoop : ExecWaitOutcome
  deriving DecidableEq, Repr

/-- `docker.execInContainer`: inspect the container (it must exist and
be running), create and attach an exec instance, then poll until it
finishes; a non-zero exit code becomes an error, zero yields nil, and a
cancelled context surfaces its error. -/
def docker.execInContainer (w : ExecWorld) : Option String :=
  match w.inspect with
  | .error e => some ("failed to inspect container: " ++ e)
  | .ok running =>
    if running = false then some "container is not running"
    else
      match w.execCreate with
      | .error e => some ("failed to create exec: " ++ e)
      | .ok _ =>
        match w.execAttach with
        | .error e => some ("failed to start exec: " ++ e)
        | .ok _ =>
          match w.waitLoop with
          | .inspectErr e => some ("failed to inspect exec: " ++ e)
          | .finished code =>
            if code ≠ 0 then
              some ("exec failed with exit code: " ++ toString code)
            else none
          | .ctxDone e => some e

/-- The client outcomes `docker.Run` consumes. -/
structure RunWorld where
  clientNew : Except String Unit
  containerName : String
  pull : Bool
  pullResult : Except String Unit
  copyResult : Except String Unit
  createResult : Except String Unit
  startResult : Except String Unit
  attachWorld : AttachWaitWorld
  execWorld : ExecWorld
  deriving DecidableEq, Repr

/-- The image-pull block at the start of the new-container path. -/
def docker.pullStep (w : RunWorld) : Option String :=
  if w.pull then
    match w.pullResult with
    | .error e => some e
    | .ok _ =>
      match w.copyResult with
      | .error e => some e
      | .ok _ => none
  else none

/-- `docker.Run`: create the client; with a container name configured,
exec in the existing container, otherwise pull (optionally), create and
start a new container and wait for it. -/
def docker.Run (w : RunWorld) : Option String :=
  match w.clientNew with
  | .error e => some e
  | .ok _ =>
    if w.containerName ≠ "" then docker.execInContainer w.execWorld
    else
      match docker.pullStep w with
      | some e => some e
      | none =>
        match w.createResult with
        | .error e => some e
        | .ok _ =>
          match w.startResult with
          | .error e => some e
          | .ok _ => docker.attachAndWait w.attachWorld

theorem attachAndWait_none (aw : AttachWaitWorld)
    (h : docker.attachAndWait aw = none) :
    aw.logsResult = Except.ok () ∧ aw.wait = WaitOutcome.exitStatus 0 := by
  unfold docker.attachAndWait at h
  cases hl : aw.logsResult with
  | error e => rw [hl] at h; cases h
  | ok u =>
    cases u
    rw [hl] at h
    cases hw : aw.wait with
    | chanErr e => rw [hw] at h; cases h
    | exitStatus code =>
      rw [hw] at h
      by_cases hc : code = 0
      · subst hc; exact ⟨rfl, rfl⟩
      · simp [hc] at h

theorem execInContainer_none (ew : ExecWorld)
    (h : docker.execInContainer ew = none) :
    ew.waitLoop = ExecWaitOutcome.finished 0 := by
  unfold docker.execInContainer at h
  cases hi : ew.inspect with
  | error e => rw [hi] at h; cases h
  | ok running =>
    rw [hi] at h
    cases running with
    | false => simp at h
    | true =>
      simp only [Bool.true_eq_false, if_false] at h
      cases hc : ew.execCreate with
      | error e => rw [hc] at h; cases h
      | ok u =>
        cases u
        rw [hc] at h
        cases ha : ew.execAttach with
        | error e => rw [ha] at h; cases h
        | ok u =>
          cases u
          rw [ha] at h
          cases hwl : ew.waitLoop with
          | inspectErr e => rw [hwl] at h; cases h
          | ctxDone e => rw [hwl] at h; cases h
          | finished code =>
            rw [hwl] at h
            by_cases hz : code = 0
            · subst hz; rfl
            · simp [hz] at h

/-- C6 (amended). Absent infrastructure failures, the docker executor
returns nil exactly on exit status 0: with the logs attached and a wait
status delivered, `attachAndWait` is nil iff the status is 0; with
inspect/create/attach succeeding and the exec finishing,
`execInContainer` is nil iff the exit code is 0; and unconditionally,
`Run` returns nil only when the path it took observed exit status 0. -/
theorem docker_Run_exit_status (aw : AttachWaitWorld) (ew : ExecWorld)
    (w : RunWorld) :
    (∀ code, aw.logsResult = Except.ok () →
      aw.wait = WaitOutcome.exitStatus code →
      (docker.attachAndWait aw = none ↔ code = 0)) ∧
    (∀ code, ew.inspect = Except.ok true → ew.execCreate = Except.ok () →
      ew.execAttach = Except.ok () →
      ew.waitLoop = ExecWaitOutcome.finished code →
      (docker.execInContainer ew = none ↔ code = 0)) ∧
    (docker.Run w = none →
      (w.containerName = "" ∧
        w.attachWorld.wait = WaitOutcome.exitStatus 0) ∨
      (w.containerName ≠ "" ∧
        w.execWorld.waitLoop = ExecWaitOutcome.finished 0)) := by
  refine ⟨?_, ?_, ?_⟩
  · intro code hl hw
    unfold docker.attachAndWait
    rw [hl, hw]
    by_cases hc : code = 0 <;> simp [hc]
  · intro code hi hc ha hwl
    unfold docker.execInContainer
    rw [hi, hc, ha, hwl]
    by_cases hz : code = 0 <;> simp [hz]
  · intro h
    unfold docker.Run at h
    cases hcl : w.clientNew with
    | error e => rw [hcl] at h; cases h
    | ok u =>
      cases u
      rw [hcl] at h
      by_cases hname : w.containerName = ""
      · left
        refine ⟨hname, ?_⟩
        simp only [hname, ne_eq, not_true_eq_false, if_false] at h
        cases hp : docker.pullStep w with
        | some e => rw [hp] at h; cases h
        | none =>
          rw [hp] at h
          cases hcr : w.createResult with
          | error e => rw [hcr] at h; cases h
          | ok u =>
            cases u
            rw [hcr] at h
            cases hs : w.startResult with
            | error e => rw [hs] at h; cases h
            | ok u =>
              cases u
              rw [hs] at h
              exact (attachAndWait_none w.attachWorld h).2
      · right
        refine ⟨hname, ?_⟩
        simp only [hname, ne_eq, not_false_eq_true, if_true] at h
        exact execInContainer_none w.execWorld h

/-- World where the container starts, its logs cannot be attached, and
it exits with status 0. -/
def cexRunWorld : RunWorld :=
  { clientNew := .ok (), containerName := "", pull := false,
    pullResult := .ok (), copyResult := .ok (), createResult := .ok (),
    startResult := .ok (),
    attachWorld := { logsResult := .error "cannot attach container logs",
                     wait := .exitStatus 0 },
    execWorld := { inspect := .ok true, execCreate := .ok (),
                   execAttach := .ok (), waitLoop := .finished 0 } }

/-- C6 counterexample. The container is created and started and its wait
status is 0, yet `Run` returns a non-nil error because attaching the
logs failed: `Run` nil is not equivalent to exit status 0. -/
theorem docker_Run_exit_zero_counterexample :
    cexRunWorld.attachWorld.wait = WaitOutcome.exitStatus 0 ∧
    cexRunWorld.startResult = Except.ok () ∧
    docker.Run cexRunWorld = some "cannot attach container logs" := by
  exact ⟨rfl, rfl, rfl⟩

/-- World where every client operation succeeds and the container exits
with status 0. -/
def okRunWorld : RunWorld :=
  { clientNew := .ok (), containerName := "", pull := true,
    pullResult := .ok (), copyResult := .ok (), createResult := .ok (),
    startResult := .ok (),
    attachWorld := { logsResult := .ok (), wait := .exitStatus 0 },
    execWorld := { inspect := .ok true, execCreate := .ok (),
                   execAttach := .ok (), waitLoop := .finished 0 } }

/-- Witness for `docker_Run_exit_status` on concrete worlds: a clean
wait with status 0, a clean exec finishing with code 2, and a fully
successful run. -/
theorem docker_Run_exit_status_witness :
    (docker.attachAndWait
        { logsResult := .ok (), wait := .exitStatus 0 } = none ↔
      (0 : Int) = 0) ∧
    (docker.execInContainer
        { inspect := .ok true, execCreate := .ok (), execAttach := .ok (),
          waitLoop := .finished 2 } = none ↔ (2 : Int) = 0) ∧
    ((okRunWorld.containerName = "" ∧
        okRunWorld.attachWorld.wait = WaitOutcome.exitStatus 0) ∨
      (okRunWorld.containerName ≠ "" ∧
        okRunWorld.execWorld.waitLoop = ExecWaitOutcome.finished 0)) := by
  have h := docker_Run_exit_status
    { logsResult := .ok (), wait := .exitStatus 0 }
    { inspect := .ok true, execCreate := .ok (), execAttach := .ok (),
      waitLoop := .finished 2 }
    okRunWorld
  exact ⟨h.1 0 rfl rfl, h.2.1 2 rfl rfl rfl rfl, h.2.2 rfl⟩

/-! ## Scheduler status and return value

`Scheduler.Schedule`'s implementation is not among the available
sources; only its test harness is.  The definitions below are therefore
modelled from the specification's own words and the claims are settled
against them.
-/

/-- Node status at scheduler termination. -/
inductive NodeStatus where
  | statusNone
  | running
  | error
  | cancel
  | success
  | skipped
  deriving DecidableEq, Repr

/-- Overall scheduler status. -/
inductive SchedStatus where
  | success
  | error
  | cancel
  deriving DecidableEq, Repr

/-- A node's terminal state together with its recorded error. -/
structure NodeResult where
  status : NodeStatus
  nodeError : Option String
  deriving DecidableEq, Repr

/-- Modelled from the spec: `Scheduler.Schedule`'s overall-status
computation (the implementation is absent from the sources).  Spec
§4.4 step 5: the overall status is `Cancel` if any node is Cancel, else
`Error` if any node is Error, else `Success`. -/
def overallStatus (nodes : List NodeResult) : SchedStatus :=
  if nodes.any (fun n => n.status = NodeStatus.cancel) then .cancel
  else if nodes.any (fun n => n.status = NodeStatus.error) then .error
  else .success

/-- Modelled from the spec: the error aggregation of §7 — "the
scheduler aggregates errors but reports only the first non-nil to the
caller". -/
def firstNodeError : List NodeResult → Option String
  | [] => none
  | n :: rest =>
    match n.nodeError with
    | some e => some e
    | none => firstNodeError rest

/-- Modelled from the spec: `Scheduler.Schedule`'s return value (the
implementation is absent from the sources).  Spec §4.4: "`Schedule`
returns nil on graceful cancel and the first non-nil node error on error
termination"; §7: "The Scheduler's final return value is nil on Success
or Cancel, non-nil on Error". -/
def scheduleReturn (nodes : List NodeResult) : Option String :=
  match overallStatus nodes with
  | .error => firstNodeError nodes
  | _ => none

theorem firstNodeError_isSome_of_exists (nodes : List NodeResult)
    (h : ∃ n ∈ nodes, n.nodeError ≠ none) :
    firstNodeError nodes ≠ none := by
  induction nodes with
  | nil => rcases h with ⟨n, hn, _⟩; cases hn
  | cons n rest ih =>
    cases he : n.nodeError with
    | some e => simp [firstNodeError, he]
    | none =>
      simp only [firstNodeError, he]
      rcases h with ⟨m, hm, hme⟩
      rcases List.mem_cons.mp hm with hm | hm
      · subst hm; exact absurd he hme
      · exact ih ⟨m, hm, hme⟩

theorem overallStatus_error_any (nodes : List NodeResult)
    (h : overallStatus nodes = SchedStatus.error) :
    ∃ n ∈ nodes, n.status = NodeStatus.error := by
  unfold overallStatus at h
  by_cases hc : nodes.any (fun n => n.status = NodeStatus.cancel)
  · simp [hc] at h
  · simp only [hc, if_false] at h
    by_cases he : nodes.any (fun n => n.status = NodeStatus.error)
    · rcases List.any_eq_true.mp he with ⟨n, hn, hne⟩
      exact ⟨n, hn, of_decide_eq_true hne⟩
    · simp [he] at h

/-- C8. Provided every Error node carries a non-nil error (the spec's
"the Node records its terminal error"), `Schedule`'s return value is
non-nil exactly when the computed overall status is Error; on Success
and on Cancel it is nil, and on Error it is the first non-nil node
error. -/
theorem scheduleReturn_error_iff (nodes : List NodeResult)
    (herr : ∀ n ∈ nodes, n.status = NodeStatus.error → n.nodeError ≠ none) :
    (scheduleReturn nodes ≠ none ↔
      overallStatus nodes = SchedStatus.error) ∧
    (overallStatus nodes = SchedStatus.success →
      scheduleReturn nodes = none) ∧
    (overallStatus nodes = SchedStatus.cancel →
      scheduleReturn nodes = none) ∧
    (overallStatus nodes = SchedStatus.error →
      scheduleReturn nodes = firstNodeError nodes) := by
  have hok : overallStatus nodes = SchedStatus.error →
      scheduleReturn nodes = firstNodeError nodes := by
    intro h; unfold scheduleReturn; rw [h]
  refine ⟨⟨?_, ?_⟩, ?_, ?_, hok⟩
  · intro hne
    unfold scheduleReturn at hne
    cases h : overallStatus nodes with
    | error => rfl
    | success => rw [h] at hne; simp at hne
    | cancel => rw [h] at hne; simp at hne
  · intro h
    rw [hok h]
    rcases overallStatus_error_any nodes h with ⟨n, hn, hns⟩
    exact firstNodeError_isSome_of_exists nodes ⟨n, hn, herr n hn hns⟩
  · intro h; unfold scheduleReturn; rw [h]
  · intro h; unfold scheduleReturn; rw [h]

/-- A terminal graph with one successful node and one failed node. -/
def nodesWithFailure : List NodeResult :=
  [{ status := NodeStatus.success, nodeError := none },
   { status := NodeStatus.error, nodeError := some "exit status 1" }]

/-- Witness for `scheduleReturn_error_iff` on a concrete run with one
failed node. -/
theorem scheduleReturn_error_iff_witness :
    (scheduleReturn nodesWithFailure ≠ none ↔
      overallStatus nodesWithFailure = SchedStatus.error) ∧
    overallStatus nodesWithFailure = SchedStatus.error ∧
    scheduleReturn nodesWithFailure = some "exit status 1" := by
  have h := scheduleReturn_error_iff nodesWithFailure (by decide)
  exact ⟨h.1, rfl, rfl⟩

end DaguSpec
